import Mathlib

/-!
# Phonebook (part2/phonebook/src/App.jsx)

A shallow embedding of the phonebook component: the React state of `App`, its event
handlers `addPerson`, `handleDelete` and `showNotification`, and the promise callbacks
attached to the requests sent through `numberService`.

Modelling conventions.

* The state variables of `App` are the fields of `State`.  The callbacks registered with
  `setTimeout` are kept in `State.timers` by the time at which they are due.
* A handler runs against the state of the render in which it was created.  The values its
  promise callbacks close over (`persons`, `existingPerson`) are stored in the `Pending`
  request, and a callback that runs later uses those stored values, as the closures do.
* `window.confirm` is an argument of type `String → Bool`: the answer of the user to the
  prompt that is shown.
* The server is not modelled: a request is settled by an `Outcome`, chosen by the environment.
-/

namespace Phonebook

/-! ## Data model -/

/-- A contact record `{id, name, number}` as held in `persons` and exchanged with the
server.  Identifiers are strings, as `addPerson` generates them. -/
structure Person where
  id : String
  name : String
  number : String
deriving DecidableEq, Repr

/-- The state variables of `App` (lines 21-37), and the timeouts that are still pending. -/
structure State where
  persons : List Person
  newName : String
  newNumber : String
  searchTerm : String
  notificationMessage : Option String
  notificationType : String
  timers : List Nat
deriving DecidableEq, Repr

/-- The state of `App` at its first render: the initial values passed to `useState`. -/
def State.initial : State :=
  { persons := [], newName := "", newNumber := "", searchTerm := "",
    notificationMessage := none, notificationType := "success", timers := [] }

/-! ## JavaScript numbers, as far as identifiers need them

`Number(p.id)`, `Math.max`, `+ 1` and `String` are modelled on `NaN` and on the numbers
whose value is an integer.  The model follows JavaScript when every identifier is, after
trimming white space, empty or an optionally signed run of decimal digits, and the numbers
involved have magnitude at most `2 ^ 53`.  Beyond that magnitude `roundToDouble` still
rounds as doubles do, but `jsString` prints all digits where JavaScript prints the shortest
digits that read back to the same double.  Literals with a fraction, an exponent, a radix
prefix or `Infinity` are not modelled and read as `NaN` here.  Statements about the value of
a generated identifier therefore carry hypotheses that keep the identifiers inside the
modelled range, or are about one concrete collection inside it. -/

/-- A JavaScript number: `NaN`, or a finite number whose value is the integer `z`. -/
inductive JSNumber where
  | nan
  | fin (z : Int)
deriving DecidableEq, Repr

/-- Number of binary digits of `n`, by halving; `fuel` bounds the number of halvings. -/
def bitLengthAux : Nat → Nat → Nat
  | 0, _ => 0
  | fuel + 1, n => if n = 0 then 0 else bitLengthAux fuel (n / 2) + 1

/-- Number of binary digits of `n`. -/
def bitLength (n : Nat) : Nat := bitLengthAux n n

/-- The integer-valued double nearest to the integer `z`, ties to the even significand:
integers of magnitude up to `2 ^ 53` are exact, larger ones keep 53 significant bits. -/
def roundToDouble (z : Int) : Int :=
  let n := z.natAbs
  if n ≤ 2 ^ 53 then z
  else
    let e := bitLength n - 53
    let q := n / 2 ^ e
    let r := n % 2 ^ e
    let half := 2 ^ (e - 1)
    let q1 := if half < r ∨ (r = half ∧ q % 2 = 1) then q + 1 else q
    Int.sign z * ((q1 * 2 ^ e : Nat) : Int)

/-- The white space that `Number` strips from both ends of a string: the ECMAScript
`WhiteSpace` and `LineTerminator` code points. -/
def isStrWhiteSpaceChar (c : Char) : Bool :=
  let n := c.toNat
  n = 0x9 || n = 0xA || n = 0xB || n = 0xC || n = 0xD || n = 0x20 || n = 0xA0 ||
  n = 0x1680 || (0x2000 ≤ n && n ≤ 0x200A) || n = 0x2028 || n = 0x2029 ||
  n = 0x202F || n = 0x205F || n = 0x3000 || n = 0xFEFF

/-- Value of a run of decimal digits, most significant first. -/
def decimalValue (ds : List Char) : Nat :=
  ds.foldl (fun acc c => 10 * acc + (c.toNat - 48)) 0

/-- Value of an unsigned run of characters: a number when they are decimal digits. -/
def unsignedNumber (sign : Int) (ds : List Char) : JSNumber :=
  if ds ≠ [] ∧ ds.all Char.isDigit = true then
    JSNumber.fin (roundToDouble (sign * (decimalValue ds : Int)))
  else JSNumber.nan

/-- The string with the white space at both ends removed. -/
def trimWhiteSpace (cs : List Char) : List Char :=
  ((cs.dropWhile isStrWhiteSpaceChar).reverse.dropWhile isStrWhiteSpaceChar).reverse

/-- Value of a trimmed string: the empty string is `0`, an optionally signed run of
decimal digits is its value, anything else is `NaN`. -/
def strNumericLiteral (cs : List Char) : JSNumber :=
  match cs with
  | [] => JSNumber.fin 0
  | '-' :: ds => unsignedNumber (-1) ds
  | '+' :: ds => unsignedNumber 1 ds
  | ds => unsignedNumber 1 ds

/-- `Number(s)` for a string `s`. -/
def jsNumber (s : String) : JSNumber :=
  strNumericLiteral (trimWhiteSpace s.toList)

/-- `Math.max(a, b)`: `NaN` when either argument is `NaN`. -/
def JSNumber.max : JSNumber → JSNumber → JSNumber
  | JSNumber.fin a, JSNumber.fin b => JSNumber.fin (Max.max a b)
  | _, _ => JSNumber.nan

/-- `Math.max(...xs, last)`. -/
def mathMax (xs : List JSNumber) (last : JSNumber) : JSNumber :=
  xs.foldr JSNumber.max last

/-- `x + 1` on numbers. -/
def JSNumber.addOne : JSNumber → JSNumber
  | JSNumber.nan => JSNumber.nan
  | JSNumber.fin z => JSNumber.fin (roundToDouble (z + 1))

/-- `String(x)` for a number `x`. -/
def jsString : JSNumber → String
  | JSNumber.nan => "NaN"
  | JSNumber.fin z => toString z

/-- The identifier of `personObject` (line 243):
`String(Math.max(...persons.map(p => Number(p.id)), 0) + 1)`. -/
def newId (persons : List Person) : String :=
  jsString (mathMax (persons.map (fun p => jsNumber p.id)) (JSNumber.fin 0)).addOne

/-! ## Requests and their callbacks -/

/-- A request sent through `numberService`, with the values its callbacks close over:
the `persons` of the render that sent it, and the arguments of the call. -/
inductive Pending where
  /-- The call `numberService.update(existingPerson.id, changedPerson)` of line 193. -/
  | update (persons : List Person) (existingPerson changedPerson : Person)
  /-- The call `numberService.create(personObject)` of line 249. -/
  | create (persons : List Person) (personObject : Person)
  /-- The call `numberService.remove(id)` of line 110. -/
  | remove (persons : List Person) (id : String)
deriving DecidableEq, Repr

/-- How a request ends: its promise is fulfilled with a record, or rejected.  The callback
of `remove` takes no argument, so the record is ignored there.  A fulfilled promise always
carries a well-formed record: replies without one are not modelled. -/
inductive Outcome where
  | fulfilled (returnedPerson : Person)
  | rejected
deriving DecidableEq, Repr

/-- The identifier an update request is addressed to: the first argument of `update`. -/
def Pending.updateTarget : Pending → Option String
  | Pending.update _ existingPerson _ => some existingPerson.id
  | _ => none

/-- Whether the request is a call of `numberService.update`. -/
def Pending.isUpdate : Pending → Bool
  | Pending.update _ _ _ => true
  | _ => false

/-- Whether the request is a call of `numberService.create`. -/
def Pending.isCreate : Pending → Bool
  | Pending.create _ _ => true
  | _ => false

/-! ## Handlers -/

/-- The delay of the timeout set by `showNotification`, in milliseconds (line 140). -/
def notificationDelay : Nat := 5000

/-- The function `showNotification(message, type)` of lines 126-141, called at time `now`:
sets the message and the type, and registers a timeout due at `now + 5000`. -/
def showNotification (now : Nat) (message : String) (type : String) (s : State) : State :=
  { s with
    notificationMessage := some message
    notificationType := type
    timers := s.timers ++ [now + notificationDelay] }

/-- The `type = 'success'` default of `showNotification`. -/
def defaultType : String := "success"

/-- The callback of the timeout (lines 136-140): `setNotificationMessage(null)`. -/
def timeoutCallback (s : State) : State :=
  { s with notificationMessage := none }

/-- The `existingPerson` of line 179: `persons.find(person => person.name === newName)`. -/
def existingPerson (s : State) : Option Person :=
  s.persons.find? (fun person => person.name == s.newName)

/-- The prompt of the overwrite confirmation (line 185). -/
def overwritePrompt (newName : String) : String :=
  newName ++ " is already added to phonebook, replace the old number with a new one?"

/-- The `personObject` of lines 235-244. -/
def personObject (s : State) : Person :=
  { name := s.newName, number := s.newNumber, id := newId s.persons }

/-- The handler `addPerson` (lines 171-271) up to the point where it returns: the state it
leaves and the requests it has sent.  `confirm` answers `window.confirm`. -/
def addPerson (confirm : String → Bool) (s : State) : State × List Pending :=
  match existingPerson s with
  | some existing =>
    if confirm (overwritePrompt s.newName) then
      let changedPerson := { existing with number := s.newNumber }
      ({ s with newName := "", newNumber := "" },
        [Pending.update s.persons existing changedPerson])
    else (s, [])
  | none => (s, [Pending.create s.persons (personObject s)])

/-- The handler `handleDelete(id, name)` (lines 104-118) up to the point where it returns. -/
def handleDelete (id name : String) (confirm : String → Bool) (s : State) :
    State × List Pending :=
  if confirm ("Delete " ++ name ++ "?") then (s, [Pending.remove s.persons id])
  else (s, [])

/-- The promise callbacks: what the settling of request `p` with outcome `o` at time `now`
does to the state `s` current at that time.
* `update`, fulfilled: lines 198-204; rejected: lines 209-216.
* `create`, fulfilled: lines 253-264; rejected: lines 267-270.
* `remove`, fulfilled: lines 114-116; rejected: no callback is attached. -/
def settle (now : Nat) (p : Pending) (o : Outcome) (s : State) : State :=
  match p, o with
  | Pending.update persons existing _, Outcome.fulfilled returnedPerson =>
    showNotification now ("Updated " ++ returnedPerson.name ++ "'s number") defaultType
      { s with persons := persons.map (fun person =>
          if person.id != existing.id then person else returnedPerson) }
  | Pending.update persons existing _, Outcome.rejected =>
    { showNotification now
        ("Information of " ++ existing.name ++ " has already been removed from server")
        "error" s with
      persons := persons.filter (fun p => p.id != existing.id) }
  | Pending.create persons _, Outcome.fulfilled returnedPerson =>
    { showNotification now ("Added " ++ returnedPerson.name) defaultType
        { s with persons := persons ++ [returnedPerson] } with
      newName := "", newNumber := "" }
  | Pending.create _ _, Outcome.rejected =>
    showNotification now "Failed to add person" "error" s
  | Pending.remove persons id, Outcome.fulfilled _ =>
    { s with persons := persons.filter (fun person => person.id != id) }
  | Pending.remove _ _, Outcome.rejected => s

/-! ## Specification vocabulary -/

/-- The function applied by the update callback to every entry (lines 199-201). -/
def replaceById (id : String) (r : Person) (person : Person) : Person :=
  if person.id = id then r else person

/-- What one `showNotification` call leaves behind: the message, the type, and exactly one
more timeout than before, due 5000 ms after `now`. -/
def NotifiedOnce (now : Nat) (message type : String) (before after : State) : Prop :=
  after.notificationMessage = some message ∧ after.notificationType = type ∧
  after.timers = before.timers ++ [now + 5000]

/-- No notification was emitted between two states. -/
def NotNotified (before after : State) : Prop :=
  after.notificationMessage = before.notificationMessage ∧
  after.notificationType = before.notificationType ∧ after.timers = before.timers

/-! ## One event and its outcome -/

/-- No two contacts of the collection share a display name. -/
def NamesUnique (persons : List Person) : Prop :=
  (persons.map (fun p => p.name)).Nodup

/-- No two contacts of the collection share an identifier. -/
def IdsUnique (persons : List Person) : Prop :=
  (persons.map (fun p => p.id)).Nodup

/-- One submission of the form followed, with nothing in between, by the settling of the
request it sent (if it sent one) with outcome `o`. -/
def afterSubmission (confirm : String → Bool) (o : Outcome) (now : Nat) (s : State) : State :=
  (addPerson confirm s).2.foldl (fun st req => settle now req o st) (addPerson confirm s).1

/-- One click on a delete button followed, with nothing in between, by the settling of the
request it sent (if it sent one) with outcome `o`. -/
def afterDelete (id name : String) (confirm : String → Bool) (o : Outcome) (now : Nat)
    (s : State) : State :=
  (handleDelete id name confirm s).2.foldl (fun st req => settle now req o st)
    (handleDelete id name confirm s).1

/-! ## Example states -/

/-- A phonebook with the single contact `Ada`, and the form filled in with `("Ada", "2")`. -/
def adaBook : State :=
  { State.initial with
    persons := [⟨"1", "Ada", "1"⟩]
    newName := "Ada"
    newNumber := "2" }

/-- A phonebook with the contacts `Ada` and `Bo`, and the form filled in with `("Ada", "2")`. -/
def adaBoBook : State :=
  { State.initial with
    persons := [⟨"1", "Ada", "1"⟩, ⟨"2", "Bo", "9"⟩]
    newName := "Ada"
    newNumber := "2" }

/-- An empty phonebook, and the form filled in with `("Bo", "9")`. -/
def emptyBook : State :=
  { State.initial with
    newName := "Bo"
    newNumber := "9" }

/-! ## Time and the notification timeouts -/

/-- Time passes to `t`: every pending timeout that is due at `t` or before runs its callback
(lines 136-140) and is no longer pending. -/
def runTimers (t : Nat) (s : State) : State :=
  { (s.timers.filter (fun due => decide (due ≤ t))).foldl (fun st _ => timeoutCallback st) s with
    timers := s.timers.filter (fun due => decide (t < due)) }

/-- The value of the parameter `type` of `showNotification`: the argument when one is
passed, the default `'success'` when it is omitted. -/
def typeOrDefault (type : Option String) : String :=
  type.getD defaultType

/-- Two calls of `showNotification`, at `t1` and at `t2`, with the timeouts run as time
passes, and the state observed at time `t`. -/
def twoNotifications (s : State) (t1 : Nat) (m1 ty1 : String) (t2 : Nat) (m2 ty2 : String)
    (t : Nat) : State :=
  runTimers t (showNotification t2 m2 ty2 (runTimers t2 (showNotification t1 m1 ty1 s)))

/-! ## The search filter -/

/-- `text.includes(search)` on the characters of the two strings: `search` occurs in `text`
at some position. -/
def includesChars : List Char → List Char → Bool
  | [], search => search.isEmpty
  | c :: cs, search => search.isPrefixOf (c :: cs) || includesChars cs search

/-- `text.includes(search)`. -/
def includes (text search : String) : Bool :=
  includesChars text.toList search.toList

/-- The `filteredPersons` of lines 286-288.  `toLowerCase` is the lower-casing of the
JavaScript runtime, `String.prototype.toLowerCase`. -/
def filteredPersons (toLowerCase : String → String) (s : State) : List Person :=
  s.persons.filter (fun person =>
    includes (toLowerCase person.name) (toLowerCase s.searchTerm))

/-- What `toLowerCase` does on strings of ASCII characters: the letters `A` to `Z` become
`a` to `z`, every other character is kept. -/
def asciiToLowerCase (s : String) : String :=
  String.mk (s.toList.map Char.toLower)

/-- A phonebook with the contacts `John Smith` and `Jane Doe`, and the search term `JO`. -/
def searchBook : State :=
  { State.initial with
    persons := [⟨"1", "John Smith", "1"⟩, ⟨"2", "Jane Doe", "2"⟩]
    searchTerm := "JO" }

/-! ## The component `Notification` (components/Notification.jsx) -/

/-- The style object `notificationStyle`: `baseStyle` and the colour. -/
structure NotificationStyle where
  background : String
  fontSize : Nat
  borderStyle : String
  borderRadius : Nat
  padding : Nat
  marginBottom : Nat
  color : String
deriving DecidableEq, Repr

/-- The `div` that `Notification` returns: its style and its text. -/
structure NotificationView where
  style : NotificationStyle
  text : String
deriving DecidableEq, Repr

/-- The component `Notification`: `none` is the `null` it returns when `message === null`. -/
def Notification (message : Option String) (type : String) : Option NotificationView :=
  match message with
  | none => none
  | some text =>
    some
      { style :=
          { background := "lightgrey", fontSize := 20, borderStyle := "solid",
            borderRadius := 5, padding := 10, marginBottom := 10,
            color := if type = "error" then "red" else "green" }
        text := text }

/-! ## An update and a delete in flight together -/

/-- The ordering in which an update is submitted and confirmed, then a delete of `id` is
confirmed and fulfilled, and then the update is fulfilled with `r`.  The result is the
state after the delete has settled and the state after the update has settled. -/
def updateDeleteRace (s : State) (id name : String) (r : Person) (now : Nat) :
    State × State :=
  let submitted := addPerson (fun _ => true) s
  let clicked := handleDelete id name (fun _ => true) submitted.1
  let deleted :=
    clicked.2.foldl (fun st req => settle now req (Outcome.fulfilled r) st) clicked.1
  (deleted,
    submitted.2.foldl (fun st req => settle now req (Outcome.fulfilled r) st) deleted)

/-- A phonebook whose single contact has identifier `9007199254740992`, that is `2 ^ 53`. -/
def largeIdBook : List Person :=
  [⟨"9007199254740992", "Ada", "1"⟩]

/-- The phonebook `largeIdBook`, and the form filled in with `("Bo", "9")`. -/
def largeIdState : State :=
  { State.initial with
    persons := largeIdBook
    newName := "Bo"
    newNumber := "9" }

/-- The characters `body` are an integer written in decimal, and `z` is the integer: decimal
digits, at least one and leading zeros allowed, with no sign, with `+` or with `-`; or no
character at all, which reads as `0`. -/
def IntegerLiteral (body : List Char) (z : Int) : Prop :=
  (body = [] ∧ z = 0) ∨
  ∃ ds : List Char, ds ≠ [] ∧ (∀ c ∈ ds, c.isDigit = true) ∧
    ((body = ds ∧ z = (decimalValue ds : Int)) ∨
     (body = '+' :: ds ∧ z = (decimalValue ds : Int)) ∨
     (body = '-' :: ds ∧ z = -(decimalValue ds : Int)))

/-- The identifier `s` reads as the integer `z`: it is an integer written in decimal,
possibly with white space before and after it. -/
def ReadsAsInteger (s : String) (z : Int) : Prop :=
  ∃ before body after : List Char, s.toList = before ++ body ++ after ∧
    (∀ c ∈ before, isStrWhiteSpaceChar c = true) ∧
    (∀ c ∈ after, isStrWhiteSpaceChar c = true) ∧ IntegerLiteral body z

/-- A phonebook whose single contact has identifier `-5`, and the form filled in with
`("Bo", "9")`. -/
def negativeIdState : State :=
  { State.initial with
    persons := [⟨"-5", "Ada", "1"⟩]
    newName := "Bo"
    newNumber := "9" }

/-- A phonebook with the identifiers `007`, ` +3 ` and `-5`, and the form filled in with
`("Dee", "5")`. -/
def mixedIdBook : State :=
  { State.initial with
    persons := [⟨"007", "Ada", "1"⟩, ⟨" +3 ", "Bo", "9"⟩, ⟨"-5", "Cy", "4"⟩]
    newName := "Dee"
    newNumber := "5" }

/-- A run of decimal digits: the string `s` is not empty, consists of the digits `0` to
`9`, and `n` is the number it denotes. -/
def IsDecimal (s : String) (n : Nat) : Prop :=
  s.toList ≠ [] ∧ (∀ c ∈ s.toList, c.isDigit = true) ∧ decimalValue s.toList = n

/-- A phonebook with the identifiers `1`, `007` and `12`. -/
def leadingZeroBook : List Person :=
  [⟨"1", "Ada", "1"⟩, ⟨"007", "Bo", "9"⟩, ⟨"12", "Cy", "4"⟩]

end Phonebook

/-!
# Countries (part2/countries/src)

The view chosen by `App`, and the components `CountryList` and `CountryDetail`, as
functions from props and state to what is rendered.  A render that throws is an
`Except.error`.
-/

namespace Countries

/-- A country record of the REST Countries API, as far as the components read it:
`name.common`, `capital`, `area`, the values of `languages`, and `flags.svg`.  `capital`
and `languages` are `none` when the property is missing from the record. -/
structure Country where
  common : String
  capital : Option (List String)
  area : String
  languages : Option (List String)
  flag : String
deriving DecidableEq, Repr

/-- The weather record held in the state `weather` of `CountryDetail`, as far as it is
rendered: `main.temp`, `weather[0].description` and `weather[0].icon`. -/
structure Weather where
  temp : String
  description : String
  icon : String
deriving DecidableEq, Repr

/-- The error thrown by reading a property of `null` or `undefined`. -/
inductive JSError where
  | typeError (reading : String)
deriving DecidableEq, Repr

/-- The weather part of the detail view (lines 87-103). -/
inductive WeatherView where
  | loading
  | shown (heading temperature condition icon : String)
deriving DecidableEq, Repr

/-- What `CountryDetail` renders. -/
inductive DetailView where
  /-- The paragraph of line 70. -/
  | message (text : String)
  /-- The `div` of lines 73-105. -/
  | detail (heading capital area languages flagSrc flagAlt : String) (weather : WeatherView)
deriving DecidableEq, Repr

/-- Reading `country.capital`: a `TypeError` when `country` is `null` or `undefined`. -/
def readCapital (country : Option Country) : Except JSError (Option (List String)) :=
  match country with
  | none => Except.error (JSError.typeError "capital")
  | some c => Except.ok c.capital

/-- An array element that may be `undefined`, as JSX shows it: nothing for `undefined`. -/
def shown (x : Option String) : String :=
  x.getD ""

/-- One render of `CountryDetail` (lines 4-106) with prop `country` and state `weather`.
The hooks come first: the dependency array `[country.capital, apiKey]` of line 65 is
evaluated before the guard of line 70 is reached. -/
def CountryDetail (country : Option Country) (weather : Option Weather) :
    Except JSError DetailView := do
  let _ ← readCapital country
  match country with
  | none => pure (DetailView.message "No country data available.")
  | some c =>
    let capital ← match c.capital with
      | none => Except.error (JSError.typeError "0")
      | some cs => pure (shown cs.head?)
    let languages ← match c.languages with
      | none => Except.error (JSError.typeError "languages")
      | some ls => pure (", ".intercalate ls)
    let weatherView := match weather with
      | none => WeatherView.loading
      | some w =>
        WeatherView.shown ("Weather in " ++ capital) ("Temperature: " ++ w.temp ++ " °C")
          ("Condition: " ++ w.description)
          ("http://openweathermap.org/img/wn/" ++ w.icon ++ "@2x.png")
    pure (DetailView.detail c.common ("Capital: " ++ capital) ("Area: " ++ c.area)
      ("Languages: " ++ languages) c.flag ("Flag of " ++ c.common) weatherView)

/-- What `CountryList` renders for one country (lines 19-27): the key and the name shown,
the label of the button, and what a click on the button does. -/
structure ListItem (α : Type) where
  key : String
  name : String
  button : String
  onClick : α

/-- What `CountryList` renders: the paragraph of line 10, or the list of lines 14-29. -/
inductive ListView (α : Type) where
  | message (text : String)
  | list (items : List (ListItem α))

/-- The component `CountryList` (lines 6-31); `onSelect country` is the effect of the call
`onSelect(country)`. -/
def CountryList {α : Type} (countries : List Country) (onSelect : Country → α) :
    ListView α :=
  if countries.length > 10 then ListView.message "Too many matches, specify another filter"
  else
    ListView.list (countries.map (fun country =>
      { key := country.common, name := country.common, button := "Show",
        onClick := onSelect country }))

/-- The message of a rendered list view, if it is the message. -/
def ListView.text? {α : Type} : ListView α → Option String
  | ListView.message text => some text
  | ListView.list _ => none

/-- The items of a rendered list view; none when it is the message. -/
def ListView.items {α : Type} : ListView α → List (ListItem α)
  | ListView.message _ => []
  | ListView.list items => items

/-- The element that `App` returns inside its `div` (lines 99-118): a `CountryDetail` with
its prop `country`, or a `CountryList` with its prop `countries`. -/
inductive AppView where
  | countryDetail (country : Option Country)
  | countryList (countries : List Country)
deriving DecidableEq, Repr

/-- The conditional rendering of `App` (lines 99-118) from the state variables
`selectedCountry` (`none` is `null`) and `countries`. -/
def App (selectedCountry : Option Country) (countries : List Country) : AppView :=
  match selectedCountry with
  | some country => AppView.countryDetail (some country)
  | none =>
    if countries.length = 1 then AppView.countryDetail countries[0]?
    else AppView.countryList countries

/-- An example record. -/
def finland : Country :=
  { common := "Finland", capital := some ["Helsinki"], area := "338424",
    languages := some ["Finnish", "Swedish"], flag := "https://flagcdn.com/fi.svg" }

/-- An example record. -/
def sweden : Country :=
  { common := "Sweden", capital := some ["Stockholm"], area := "450295",
    languages := some ["Swedish"], flag := "https://flagcdn.com/se.svg" }

end Countries

namespace Phonebook

/-! ## Lemmas on the handlers -/

theorem existingPerson_eq_some_iff (s : State) (p : Person) :
    existingPerson s = some p ↔
      p.name = s.newName ∧ ∃ pre post, s.persons = pre ++ p :: post ∧
        ∀ q ∈ pre, q.name ≠ s.newName := by
  unfold existingPerson
  rw [List.find?_eq_some]
  simp

theorem existingPerson_eq_none_iff (s : State) :
    existingPerson s = none ↔ ∀ q ∈ s.persons, q.name ≠ s.newName := by
  unfold existingPerson
  simp

theorem existingPerson_isSome_iff (s : State) :
    (existingPerson s).isSome = true ↔ ∃ q ∈ s.persons, q.name = s.newName := by
  unfold existingPerson
  simp

theorem filter_id_ne (persons : List Person) (id : String) :
    persons.filter (fun p => p.id != id) = persons.filter (fun p => decide (p.id ≠ id)) := by
  congr 1
  funext p
  by_cases h : p.id = id <;> simp [h]

theorem map_replace (persons : List Person) (id : String) (r : Person) :
    persons.map (fun person => if person.id != id then person else r) =
      persons.map (replaceById id r) := by
  congr 1
  funext p
  unfold replaceById
  by_cases h : p.id = id <;> simp [h]

theorem map_replaceById_of_not_mem (l : List Person) (id : String) (r : Person)
    (h : id ∉ l.map (fun q => q.id)) : l.map (replaceById id r) = l := by
  induction l with
  | nil => rfl
  | cons a l ih =>
    simp only [List.map_cons, List.mem_cons, not_or] at h
    rw [List.map_cons, ih h.2]
    have : a.id ≠ id := fun e => h.1 e.symm
    simp [replaceById, this]

theorem map_replaceById_of_nodup (pre post : List Person) (p r : Person)
    (h : ((pre ++ p :: post).map (fun q => q.id)).Nodup) :
    (pre ++ p :: post).map (replaceById p.id r) = pre ++ r :: post := by
  rw [List.map_append, List.map_cons, List.nodup_append] at h
  obtain ⟨_, h2, h3⟩ := h
  have hpre : p.id ∉ pre.map (fun q => q.id) := fun hm => h3 hm (List.mem_cons_self _ _)
  have hpost : p.id ∉ post.map (fun q => q.id) := (List.nodup_cons.mp h2).1
  rw [List.map_append, List.map_cons, map_replaceById_of_not_mem pre _ _ hpre,
    map_replaceById_of_not_mem post _ _ hpost]
  simp [replaceById]

/-! ## The upsert decision -/

/-- Claim C1: `addPerson` takes the update path exactly when some contact's name equals
`newName` (string equality, no trimming or case folding).  On that path the contact found
is the first one with that name; once the user confirms, the requests sent are exactly one
`update`, addressed to that contact's identifier and carrying its record with the new
number, and no `create`.  On the other path the requests sent are exactly one `create`,
carrying `personObject`, and no `update`. -/
theorem addPerson_path (confirm : String → Bool) (s : State) :
    ((existingPerson s).isSome = true ↔ ∃ q ∈ s.persons, q.name = s.newName) ∧
    ((∃ q ∈ s.persons, q.name = s.newName) →
      ∃ pre p post, s.persons = pre ++ p :: post ∧ (∀ q ∈ pre, q.name ≠ s.newName) ∧
        p.name = s.newName ∧ existingPerson s = some p ∧
        (confirm (overwritePrompt s.newName) = true →
          (addPerson confirm s).2 =
            [Pending.update s.persons p { p with number := s.newNumber }] ∧
          ((addPerson confirm s).2.map Pending.updateTarget = [some p.id]) ∧
          (addPerson confirm s).2.filter Pending.isCreate = [])) ∧
    ((¬ ∃ q ∈ s.persons, q.name = s.newName) →
      existingPerson s = none ∧
      (addPerson confirm s).2 = [Pending.create s.persons (personObject s)] ∧
      (addPerson confirm s).2.filter Pending.isUpdate = []) := by
  refine ⟨existingPerson_isSome_iff s, ?_, ?_⟩
  · intro h
    have hs := (existingPerson_isSome_iff s).mpr h
    obtain ⟨p, hp⟩ := Option.isSome_iff_exists.mp hs
    obtain ⟨hname, pre, post, hsplit, hpre⟩ := (existingPerson_eq_some_iff s p).mp hp
    refine ⟨pre, p, post, hsplit, hpre, hname, hp, ?_⟩
    intro hc
    simp [addPerson, hp, hc, Pending.updateTarget, Pending.isCreate]
  · intro h
    have hn : existingPerson s = none := by
      rw [existingPerson_eq_none_iff]
      intro q hq hname
      exact h ⟨q, hq, hname⟩
    simp [addPerson, hn, Pending.isUpdate]

/-- The scenario of C1 on a two-contact phonebook: submitting the name of the second
contact sends one update addressed to identifier `2`. -/
theorem addPerson_path_witness :
    (addPerson (fun _ => true)
      { State.initial with
        persons := [⟨"1", "Ada", "1"⟩, ⟨"2", "Bo", "9"⟩], newName := "Bo",
        newNumber := "7" }).2 =
      [Pending.update [⟨"1", "Ada", "1"⟩, ⟨"2", "Bo", "9"⟩] ⟨"2", "Bo", "9"⟩
        ⟨"2", "Bo", "7"⟩] := by
  have h := (addPerson_path (fun _ => true)
      { State.initial with
        persons := [⟨"1", "Ada", "1"⟩, ⟨"2", "Bo", "9"⟩], newName := "Bo",
        newNumber := "7" }).2.1 ⟨⟨"2", "Bo", "9"⟩, by decide, rfl⟩
  obtain ⟨pre, p, post, _, _, _, hp, hreq⟩ := h
  have hp2 : p = ⟨"2", "Bo", "9"⟩ := by
    have : existingPerson { State.initial with
        persons := [⟨"1", "Ada", "1"⟩, ⟨"2", "Bo", "9"⟩], newName := "Bo",
        newNumber := "7" } = some ⟨"2", "Bo", "9"⟩ := by decide
    rw [this] at hp
    exact (Option.some.inj hp).symm
  subst hp2
  exact (hreq rfl).1

/-! ## Update path -/

/-- Claim C2: when `p` is the first contact named `newName`, the user confirms and the
update request is fulfilled with record `r`, then, identifiers being unique within the
collection as the data model has them, the collection set by the callback is the collection
of the submission with the entry of the matched contact replaced by `r` and every other
entry unchanged and in the same position (last conjunct).  The count is unchanged and the
entry of the matched contact is `r`, so that the number stored for it is the number of `r`.
Position by position, and whether or not identifiers are unique: every entry with another
identifier is unchanged, and the callback replaces by identifier. -/
theorem update_fulfilled (confirm : String → Bool) (s : State) (pre post : List Person)
    (p r : Person) (now : Nat) (s1 : State)
    (hsplit : s.persons = pre ++ p :: post) (hpre : ∀ q ∈ pre, q.name ≠ s.newName)
    (hname : p.name = s.newName) (hc : confirm (overwritePrompt s.newName) = true) :
    (addPerson confirm s).2 = [Pending.update s.persons p { p with number := s.newNumber }] ∧
    ∀ req ∈ (addPerson confirm s).2,
      (settle now req (Outcome.fulfilled r) s1).persons.length = s.persons.length ∧
      (∀ (i : Nat) (q : Person), s.persons[i]? = some q → q.id ≠ p.id →
        (settle now req (Outcome.fulfilled r) s1).persons[i]? = some q) ∧
      (∀ (i : Nat) (q : Person), s.persons[i]? = some q → q.id = p.id →
        (settle now req (Outcome.fulfilled r) s1).persons[i]? = some r) ∧
      (settle now req (Outcome.fulfilled r) s1).persons[pre.length]? = some r ∧
      ((s.persons.map (fun q => q.id)).Nodup →
        (settle now req (Outcome.fulfilled r) s1).persons = pre ++ r :: post) := by
  have hp : existingPerson s = some p :=
    (existingPerson_eq_some_iff s p).mpr ⟨hname, pre, post, hsplit, hpre⟩
  have hreq : (addPerson confirm s).2 =
      [Pending.update s.persons p { p with number := s.newNumber }] := by
    simp [addPerson, hp, hc]
  refine ⟨hreq, ?_⟩
  intro req hmem
  rw [hreq, List.mem_singleton] at hmem
  subst hmem
  have hmap : (settle now (Pending.update s.persons p { p with number := s.newNumber })
      (Outcome.fulfilled r) s1).persons = s.persons.map (replaceById p.id r) := by
    simp only [settle, showNotification]
    exact map_replace s.persons p.id r
  rw [hmap]
  refine ⟨by simp, ?_, ?_, ?_, ?_⟩
  · intro i q hq hne
    rw [List.getElem?_map, hq]
    simp [replaceById, hne]
  · intro i q hq he
    rw [List.getElem?_map, hq]
    simp [replaceById, he]
  · rw [hsplit, List.map_append, List.map_cons, List.getElem?_append_right (by simp)]
    simp [replaceById]
  · intro hnd
    rw [hsplit] at hnd ⊢
    exact map_replaceById_of_nodup pre post p r hnd

/-- The scenario of C2: `[Ada 1]`, submission `("Ada", "2")`, confirmed, server reply
`Ada 2` gives the collection `[Ada 2]`. -/
theorem update_fulfilled_witness :
    (settle 0 (Pending.update adaBook.persons ⟨"1", "Ada", "1"⟩ ⟨"1", "Ada", "2"⟩)
      (Outcome.fulfilled ⟨"1", "Ada", "2"⟩)
      (addPerson (fun _ => true) adaBook).1).persons = [⟨"1", "Ada", "2"⟩] :=
  ((update_fulfilled (fun _ => true) adaBook [] [] ⟨"1", "Ada", "1"⟩ ⟨"1", "Ada", "2"⟩ 0
    (addPerson (fun _ => true) adaBook).1 rfl (by simp) rfl rfl).2
    (Pending.update adaBook.persons ⟨"1", "Ada", "1"⟩ ⟨"1", "Ada", "2"⟩)
    (by decide)).2.2.2.2 (by decide)

/-- Claim C3: when the request of a confirmed update of the matched contact `p` is
rejected, the collection set by the callback holds no contact with the identifier of `p`,
holds every contact of the submission's collection with another identifier, in the original
order, and exactly one notification is emitted: type `error`, with a text that names `p`. -/
theorem update_rejected (confirm : String → Bool) (s : State) (pre post : List Person)
    (p : Person) (now : Nat) (s1 : State)
    (hsplit : s.persons = pre ++ p :: post) (hpre : ∀ q ∈ pre, q.name ≠ s.newName)
    (hname : p.name = s.newName) (hc : confirm (overwritePrompt s.newName) = true) :
    (addPerson confirm s).2 = [Pending.update s.persons p { p with number := s.newNumber }] ∧
    ∀ req ∈ (addPerson confirm s).2,
      (∀ q ∈ (settle now req Outcome.rejected s1).persons, q.id ≠ p.id) ∧
      (settle now req Outcome.rejected s1).persons =
        s.persons.filter (fun q => decide (q.id ≠ p.id)) ∧
      (∀ q ∈ s.persons, q.id ≠ p.id → q ∈ (settle now req Outcome.rejected s1).persons) ∧
      (settle now req Outcome.rejected s1).persons.Sublist s.persons ∧
      NotifiedOnce now
        ("Information of " ++ p.name ++ " has already been removed from server") "error"
        s1 (settle now req Outcome.rejected s1) := by
  have hp : existingPerson s = some p :=
    (existingPerson_eq_some_iff s p).mpr ⟨hname, pre, post, hsplit, hpre⟩
  have hreq : (addPerson confirm s).2 =
      [Pending.update s.persons p { p with number := s.newNumber }] := by
    simp [addPerson, hp, hc]
  refine ⟨hreq, ?_⟩
  intro req hmem
  rw [hreq, List.mem_singleton] at hmem
  subst hmem
  have hf : (settle now (Pending.update s.persons p { p with number := s.newNumber })
      Outcome.rejected s1).persons = s.persons.filter (fun q => decide (q.id ≠ p.id)) := by
    simp only [settle]
    exact filter_id_ne s.persons p.id
  rw [hf]
  refine ⟨?_, rfl, ?_, List.filter_sublist _, ?_⟩
  · intro q hq
    simpa using (List.mem_filter.mp hq).2
  · intro q hq hne
    exact List.mem_filter.mpr ⟨hq, by simpa using hne⟩
  · simp [NotifiedOnce, settle, showNotification, notificationDelay]

/-- The scenario of C3: `[Ada, Bo]`, a confirmed update of `Ada` that fails leaves `[Bo]`
and shows the message that names `Ada`. -/
theorem update_rejected_witness :
    (settle 0 (Pending.update adaBoBook.persons ⟨"1", "Ada", "1"⟩ ⟨"1", "Ada", "2"⟩)
      Outcome.rejected (addPerson (fun _ => true) adaBoBook).1).persons =
        [⟨"2", "Bo", "9"⟩] ∧
    (settle 0 (Pending.update adaBoBook.persons ⟨"1", "Ada", "1"⟩ ⟨"1", "Ada", "2"⟩)
      Outcome.rejected (addPerson (fun _ => true) adaBoBook).1).notificationMessage =
        some "Information of Ada has already been removed from server" :=
  have h := (update_rejected (fun _ => true) adaBoBook [] [⟨"2", "Bo", "9"⟩]
    ⟨"1", "Ada", "1"⟩ 0 (addPerson (fun _ => true) adaBoBook).1 rfl (by simp) rfl rfl).2
    (Pending.update adaBoBook.persons ⟨"1", "Ada", "1"⟩ ⟨"1", "Ada", "2"⟩) (by decide)
  ⟨h.2.1.trans (by decide), h.2.2.2.2.1.trans (by decide)⟩

/-- Claim C4: when a contact named `newName` exists and the user declines the overwrite
confirmation, `addPerson` sends no request at all, neither update nor create, and leaves
the state as it was: collection, name input, number input and notification state. -/
theorem addPerson_declined (confirm : String → Bool) (s : State)
    (hex : ∃ q ∈ s.persons, q.name = s.newName)
    (hc : confirm (overwritePrompt s.newName) = false) :
    addPerson confirm s = (s, []) := by
  obtain ⟨p, hp⟩ := Option.isSome_iff_exists.mp ((existingPerson_isSome_iff s).mpr hex)
  simp [addPerson, hp, hc]

/-- The scenario of C4: declining the overwrite of `Ada` changes nothing. -/
theorem addPerson_declined_witness : addPerson (fun _ => false) adaBook = (adaBook, []) :=
  addPerson_declined (fun _ => false) adaBook ⟨⟨"1", "Ada", "1"⟩, by decide, rfl⟩ rfl

/-! ## Create path -/

/-- Claim C5: when no contact is named `newName`, one create request is sent, and when it
is fulfilled with record `r` the collection set by the callback is the collection of the
submission followed by `r` as its last element, one longer than before; the name and number
inputs are the empty string. -/
theorem create_fulfilled (confirm : String → Bool) (s : State) (r : Person) (now : Nat)
    (s1 : State) (hno : ∀ q ∈ s.persons, q.name ≠ s.newName) :
    (addPerson confirm s).2 = [Pending.create s.persons (personObject s)] ∧
    ∀ req ∈ (addPerson confirm s).2,
      (settle now req (Outcome.fulfilled r) s1).persons = s.persons ++ [r] ∧
      (settle now req (Outcome.fulfilled r) s1).persons.length = s.persons.length + 1 ∧
      (settle now req (Outcome.fulfilled r) s1).persons.getLast? = some r ∧
      (settle now req (Outcome.fulfilled r) s1).newName = "" ∧
      (settle now req (Outcome.fulfilled r) s1).newNumber = "" := by
  have hn : existingPerson s = none := (existingPerson_eq_none_iff s).mpr hno
  have hreq : (addPerson confirm s).2 = [Pending.create s.persons (personObject s)] := by
    simp [addPerson, hn]
  refine ⟨hreq, ?_⟩
  intro req hmem
  rw [hreq, List.mem_singleton] at hmem
  subst hmem
  simp [settle, showNotification]

/-- The scenario of C5: the empty phonebook, submission `("Bo", "9")`, server reply `Bo 9`
with identifier `1` gives the collection `[Bo 9]`. -/
theorem create_fulfilled_witness :
    (settle 0 (Pending.create [] ⟨"1", "Bo", "9"⟩) (Outcome.fulfilled ⟨"1", "Bo", "9"⟩)
      (addPerson (fun _ => true) emptyBook).1).persons = [⟨"1", "Bo", "9"⟩] :=
  ((create_fulfilled (fun _ => true) emptyBook ⟨"1", "Bo", "9"⟩ 0
    (addPerson (fun _ => true) emptyBook).1 (by simp [emptyBook, State.initial])).2
    (Pending.create [] ⟨"1", "Bo", "9"⟩) (by decide)).1

/-- Claim C6: when no contact is named `newName` and the create request is rejected, the
callback leaves the collection exactly as it is (nothing was inserted at submission either),
leaves the name and number inputs as they are, and emits exactly one notification: the
text `Failed to add person`, with type `error`. -/
theorem create_rejected (confirm : String → Bool) (s : State) (now : Nat) (s1 : State)
    (hno : ∀ q ∈ s.persons, q.name ≠ s.newName) :
    addPerson confirm s = (s, [Pending.create s.persons (personObject s)]) ∧
    ∀ req ∈ (addPerson confirm s).2,
      (settle now req Outcome.rejected s1).persons = s1.persons ∧
      (settle now req Outcome.rejected s1).newName = s1.newName ∧
      (settle now req Outcome.rejected s1).newNumber = s1.newNumber ∧
      NotifiedOnce now "Failed to add person" "error" s1
        (settle now req Outcome.rejected s1) := by
  have hn : existingPerson s = none := (existingPerson_eq_none_iff s).mpr hno
  have hreq : (addPerson confirm s).2 = [Pending.create s.persons (personObject s)] := by
    simp [addPerson, hn]
  refine ⟨by simp [addPerson, hn], ?_⟩
  intro req hmem
  rw [hreq, List.mem_singleton] at hmem
  subst hmem
  simp [settle, showNotification, NotifiedOnce, notificationDelay]

/-- The scenario of C6: a failed creation of `Bo` in the empty phonebook leaves the
phonebook empty and the inputs filled in. -/
theorem create_rejected_witness :
    (settle 0 (Pending.create [] ⟨"1", "Bo", "9"⟩) Outcome.rejected
      (addPerson (fun _ => true) emptyBook).1).persons = [] ∧
    (settle 0 (Pending.create [] ⟨"1", "Bo", "9"⟩) Outcome.rejected
      (addPerson (fun _ => true) emptyBook).1).newName = "Bo" :=
  have h := (create_rejected (fun _ => true) emptyBook 0
    (addPerson (fun _ => true) emptyBook).1 (by simp [emptyBook, State.initial])).2
    (Pending.create [] ⟨"1", "Bo", "9"⟩) (by decide)
  ⟨h.1.trans (by decide), h.2.1.trans (by decide)⟩

/-! ## Deletion -/

/-- Claim C8: a delete of identifier `id` that the user confirms and whose request is
fulfilled sets the collection to the collection of the click with exactly the entries of
identifier `id` removed: no contact with identifier `id` remains, every contact with
another identifier remains, and the result is a sublist of the old collection, so that the
remaining contacts are unchanged and in their original relative order. -/
theorem delete_fulfilled (id name : String) (confirm : String → Bool) (s : State)
    (o : Person) (s1 : State) (now : Nat)
    (hc : confirm ("Delete " ++ name ++ "?") = true) :
    (handleDelete id name confirm s).2 = [Pending.remove s.persons id] ∧
    ∀ req ∈ (handleDelete id name confirm s).2,
      (settle now req (Outcome.fulfilled o) s1).persons =
        s.persons.filter (fun q => decide (q.id ≠ id)) ∧
      (∀ q ∈ (settle now req (Outcome.fulfilled o) s1).persons, q.id ≠ id) ∧
      (∀ q ∈ s.persons, q.id ≠ id →
        q ∈ (settle now req (Outcome.fulfilled o) s1).persons) ∧
      (settle now req (Outcome.fulfilled o) s1).persons.Sublist s.persons := by
  have hreq : (handleDelete id name confirm s).2 = [Pending.remove s.persons id] := by
    simp [handleDelete, hc]
  refine ⟨hreq, ?_⟩
  intro req hmem
  rw [hreq, List.mem_singleton] at hmem
  subst hmem
  have hf : (settle now (Pending.remove s.persons id) (Outcome.fulfilled o) s1).persons =
      s.persons.filter (fun q => decide (q.id ≠ id)) := by
    simp only [settle]
    exact filter_id_ne s.persons id
  rw [hf]
  refine ⟨rfl, ?_, ?_, List.filter_sublist _⟩
  · intro q hq
    simpa using (List.mem_filter.mp hq).2
  · intro q hq hne
    exact List.mem_filter.mpr ⟨hq, by simpa using hne⟩

/-- The scenario of C8: deleting `Ada` from `[Ada, Bo]` leaves `[Bo]`. -/
theorem delete_fulfilled_witness :
    (settle 0 (Pending.remove adaBoBook.persons "1") (Outcome.fulfilled ⟨"", "", ""⟩)
      adaBoBook).persons = [⟨"2", "Bo", "9"⟩] :=
  ((delete_fulfilled "1" "Ada" (fun _ => true) adaBoBook ⟨"", "", ""⟩ adaBoBook 0 rfl).2
    (Pending.remove adaBoBook.persons "1") (by decide)).1.trans (by decide)

/-- Claim C9: `handleDelete` itself leaves the state as it was.  A confirmed delete sends
one request, and when that request is rejected nothing changes: the collection and the
notification state are as before and no notification is emitted.  A delete that the user
declines sends no request and leaves the state as it was. -/
theorem delete_rejected_or_declined (id name : String) (confirm : String → Bool)
    (s s1 : State) (now : Nat) :
    (handleDelete id name confirm s).1 = s ∧
    (confirm ("Delete " ++ name ++ "?") = true →
      (handleDelete id name confirm s).2 = [Pending.remove s.persons id]) ∧
    (∀ req ∈ (handleDelete id name confirm s).2,
      settle now req Outcome.rejected s1 = s1 ∧
      NotNotified s1 (settle now req Outcome.rejected s1)) ∧
    (confirm ("Delete " ++ name ++ "?") = false →
      handleDelete id name confirm s = (s, [])) := by
  refine ⟨?_, ?_, ?_, ?_⟩
  · unfold handleDelete
    split <;> rfl
  · intro hc
    simp [handleDelete, hc]
  · intro req hmem
    unfold handleDelete at hmem
    split at hmem
    · rw [List.mem_singleton] at hmem
      subst hmem
      exact ⟨rfl, rfl, rfl, rfl⟩
    · simp at hmem
  · intro hc
    simp [handleDelete, hc]

/-- The scenario of C9: declining the deletion of `Ada` leaves `[Ada, Bo]` as it is. -/
theorem delete_rejected_or_declined_witness :
    handleDelete "1" "Ada" (fun _ => false) adaBoBook = (adaBoBook, []) :=
  (delete_rejected_or_declined "1" "Ada" (fun _ => false) adaBoBook adaBoBook 0).2.2.2 rfl

/-! ## Generated identifiers -/

theorem roundToDouble_of_le (z : Int) (h : z.natAbs ≤ 2 ^ 53) : roundToDouble z = z := by
  unfold roundToDouble
  exact if_pos h

theorem isDigit_bounds (c : Char) (h : c.isDigit = true) : 48 ≤ c.toNat ∧ c.toNat ≤ 57 := by
  simp only [Char.isDigit, Bool.and_eq_true, decide_eq_true_eq] at h
  have h1 : (48 : UInt32).toNat ≤ c.val.toNat := h.1
  have h2 : c.val.toNat ≤ (57 : UInt32).toNat := h.2
  exact ⟨h1, h2⟩

theorem not_whiteSpace_of_isDigit (c : Char) (h : c.isDigit = true) :
    isStrWhiteSpaceChar c = false := by
  have hb := isDigit_bounds c h
  simp only [isStrWhiteSpaceChar, Bool.or_eq_false_iff, Bool.and_eq_false_imp,
    decide_eq_false_iff_not, decide_eq_true_eq]
  omega

theorem digitChar_spec (k : Nat) (h : k < 10) :
    (Nat.digitChar k).isDigit = true ∧ (Nat.digitChar k).toNat - 48 = k := by
  interval_cases k <;> exact ⟨rfl, rfl⟩

theorem decimalValue_append_singleton (ds : List Char) (c : Char) :
    decimalValue (ds ++ [c]) = 10 * decimalValue ds + (c.toNat - 48) := by
  simp [decimalValue, List.foldl_append]

/-- The digits that `Nat.toDigitsCore` puts in front of its accumulator are decimal digits,
at least one, and their value is the number printed. -/
theorem toDigitsCore_spec : ∀ (fuel n : Nat) (acc : List Char), n < fuel →
    ∃ pre, Nat.toDigitsCore 10 fuel n acc = pre ++ acc ∧ pre ≠ [] ∧
      (∀ c ∈ pre, c.isDigit = true) ∧ decimalValue pre = n := by
  intro fuel
  induction fuel with
  | zero => intro n acc h; omega
  | succ fuel ih =>
    intro n acc h
    have hd := digitChar_spec (n % 10) (Nat.mod_lt _ (by decide))
    by_cases h0 : n / 10 = 0
    · refine ⟨[Nat.digitChar (n % 10)], ?_, by simp, ?_, ?_⟩
      · simp [Nat.toDigitsCore, h0]
      · intro c hc
        rw [List.mem_singleton] at hc
        rw [hc]; exact hd.1
      · have := decimalValue_append_singleton [] (Nat.digitChar (n % 10))
        simp only [List.nil_append] at this
        rw [this, hd.2]
        simp only [decimalValue, List.foldl_nil]
        omega
    · have hlt : n / 10 < fuel := by omega
      obtain ⟨pre, hpre, hne, hdig, hval⟩ := ih (n / 10) (Nat.digitChar (n % 10) :: acc) hlt
      refine ⟨pre ++ [Nat.digitChar (n % 10)], ?_, by simp, ?_, ?_⟩
      · simp [Nat.toDigitsCore, h0, hpre]
      · intro c hc
        rw [List.mem_append, List.mem_singleton] at hc
        rcases hc with hc | hc
        · exact hdig c hc
        · rw [hc]; exact hd.1
      · rw [decimalValue_append_singleton, hval, hd.2]
        omega

theorem toDigits_spec (n : Nat) :
    Nat.toDigits 10 n ≠ [] ∧ (∀ c ∈ Nat.toDigits 10 n, c.isDigit = true) ∧
      decimalValue (Nat.toDigits 10 n) = n := by
  obtain ⟨pre, hpre, hne, hdig, hval⟩ := toDigitsCore_spec (n + 1) n [] (Nat.lt_succ_self n)
  rw [List.append_nil] at hpre
  unfold Nat.toDigits
  rw [hpre]
  exact ⟨hne, hdig, hval⟩

theorem dropWhile_of_all_false (p : Char → Bool) (cs : List Char)
    (h : ∀ c ∈ cs, p c = false) : cs.dropWhile p = cs := by
  cases cs with
  | nil => rfl
  | cons a l => simp [List.dropWhile, h a (List.mem_cons_self _ _)]

theorem trimWhiteSpace_of_none (cs : List Char)
    (h : ∀ c ∈ cs, isStrWhiteSpaceChar c = false) : trimWhiteSpace cs = cs := by
  unfold trimWhiteSpace
  rw [dropWhile_of_all_false _ cs h, dropWhile_of_all_false _ cs.reverse, List.reverse_reverse]
  intro c hc
  exact h c (List.mem_reverse.mp hc)

theorem unsignedNumber_digits (sign : Int) (ds : List Char) (hne : ds ≠ [])
    (hd : ∀ c ∈ ds, c.isDigit = true) :
    unsignedNumber sign ds = JSNumber.fin (roundToDouble (sign * (decimalValue ds : Int))) := by
  have : ds.all Char.isDigit = true := List.all_eq_true.mpr hd
  simp [unsignedNumber, hne, this]

theorem strNumericLiteral_digits (ds : List Char) (hne : ds ≠ [])
    (hd : ∀ c ∈ ds, c.isDigit = true) :
    strNumericLiteral ds = JSNumber.fin (roundToDouble (decimalValue ds : Int)) := by
  cases ds with
  | nil => exact absurd rfl hne
  | cons a l =>
    have ha := isDigit_bounds a (hd a (List.mem_cons_self _ _))
    have h1 : a ≠ '-' := by
      intro e; rw [e] at ha; revert ha; decide
    have h2 : a ≠ '+' := by
      intro e; rw [e] at ha; revert ha; decide
    unfold strNumericLiteral
    split
    · simp at *
    · rename_i heq; cases heq; exact absurd rfl h1
    · rename_i heq; cases heq; exact absurd rfl h2
    · rw [unsignedNumber_digits 1 _ hne hd, one_mul]

theorem toString_nat_toList (n : Nat) : (toString n).toList = Nat.toDigits 10 n := rfl

theorem toString_int_toList (z : Int) :
    (toString z).toList =
      if 0 ≤ z then Nat.toDigits 10 z.natAbs else '-' :: Nat.toDigits 10 z.natAbs := by
  cases z with
  | ofNat n => simp; rfl
  | negSucc n =>
    have : ¬ (0 ≤ Int.negSucc n) := by simp
    rw [if_neg this]
    rfl

/-- Reading back a printed integer: `Number(String(z))` is `z`, rounded to a double. -/
theorem jsNumber_toString (z : Int) : jsNumber (toString z) = JSNumber.fin (roundToDouble z) := by
  obtain ⟨hne, hdig, hval⟩ := toDigits_spec z.natAbs
  have hws : ∀ c ∈ Nat.toDigits 10 z.natAbs, isStrWhiteSpaceChar c = false :=
    fun c hc => not_whiteSpace_of_isDigit c (hdig c hc)
  unfold jsNumber
  rw [toString_int_toList]
  by_cases hz : 0 ≤ z
  · rw [if_pos hz, trimWhiteSpace_of_none _ hws, strNumericLiteral_digits _ hne hdig, hval]
    congr 2
    omega
  · rw [if_neg hz, trimWhiteSpace_of_none]
    · have : strNumericLiteral ('-' :: Nat.toDigits 10 z.natAbs) =
          unsignedNumber (-1) (Nat.toDigits 10 z.natAbs) := rfl
      rw [this, unsignedNumber_digits _ _ hne hdig, hval]
      congr 2
      omega
    · intro c hc
      rcases List.mem_cons.mp hc with hc | hc
      · rw [hc]; decide
      · exact hws c hc

theorem mathMax_fin (zs : List Int) :
    mathMax (zs.map JSNumber.fin) (JSNumber.fin 0) = JSNumber.fin (zs.foldr max 0) := by
  induction zs with
  | nil => rfl
  | cons z zs ih =>
    simp only [mathMax, List.map_cons, List.foldr_cons] at ih ⊢
    rw [ih]
    rfl

theorem foldr_max_bound (zs : List Int) (b : Int) (hb : 0 ≤ b) (h : ∀ z ∈ zs, z ≤ b) :
    0 ≤ zs.foldr max 0 ∧ zs.foldr max 0 ≤ b := by
  induction zs with
  | nil => exact ⟨le_refl _, hb⟩
  | cons z zs ih =>
    have ih2 := ih (fun y hy => h y (List.mem_cons_of_mem _ hy))
    have hz := h z (List.mem_cons_self _ _)
    simp only [List.foldr_cons]
    exact ⟨le_max_of_le_right ih2.1, max_le hz ih2.2⟩

theorem dropWhile_append_of_all (p : Char → Bool) (l₁ l₂ : List Char)
    (h : ∀ c ∈ l₁, p c = true) : (l₁ ++ l₂).dropWhile p = l₂.dropWhile p := by
  induction l₁ with
  | nil => rfl
  | cons a l ih =>
    rw [List.cons_append, List.dropWhile_cons, if_pos (h a (List.mem_cons_self _ _))]
    exact ih (fun c hc => h c (List.mem_cons_of_mem _ hc))

theorem dropWhile_of_all_true (p : Char → Bool) (l : List Char)
    (h : ∀ c ∈ l, p c = true) : l.dropWhile p = [] := by
  have := dropWhile_append_of_all p l [] h
  simpa using this

theorem dropWhile_head_false (p : Char → Bool) (b : Char) (l : List Char)
    (h : p b = false) : (b :: l).dropWhile p = b :: l := by
  simp [List.dropWhile, h]

/-- Trimming removes the white space around a body that holds none. -/
theorem trimWhiteSpace_around (before body after : List Char)
    (hb : ∀ c ∈ before, isStrWhiteSpaceChar c = true)
    (ha : ∀ c ∈ after, isStrWhiteSpaceChar c = true)
    (hbody : ∀ c ∈ body, isStrWhiteSpaceChar c = false) :
    trimWhiteSpace (before ++ body ++ after) = body := by
  unfold trimWhiteSpace
  rw [List.append_assoc, dropWhile_append_of_all _ _ _ hb]
  cases body with
  | nil =>
    rw [List.nil_append, dropWhile_of_all_true _ _ ha]
    rfl
  | cons b bs =>
    rw [List.cons_append, dropWhile_head_false _ b _ (hbody b (List.mem_cons_self _ _)),
      ← List.cons_append, List.reverse_append,
      dropWhile_append_of_all _ _ _ (fun c hc => ha c (List.mem_reverse.mp hc)),
      dropWhile_of_all_false _ _ (fun c hc => hbody c (List.mem_reverse.mp hc)),
      List.reverse_reverse]

/-- An identifier that reads as an integer of magnitude up to `2 ^ 53` is that integer
for `Number`. -/
theorem jsNumber_of_readsAsInteger (s : String) (z : Int) (h : ReadsAsInteger s z)
    (hz : z.natAbs ≤ 2 ^ 53) : jsNumber s = JSNumber.fin z := by
  obtain ⟨before, body, after, hs, hb, ha, hlit⟩ := h
  unfold jsNumber
  rw [hs]
  rcases hlit with ⟨rfl, rfl⟩ | ⟨ds, hne, hdig, hbody⟩
  · rw [trimWhiteSpace_around before [] after hb ha (fun c hc => absurd hc (List.not_mem_nil _))]
    rfl
  · have hws : ∀ c ∈ ds, isStrWhiteSpaceChar c = false :=
      fun c hc => not_whiteSpace_of_isDigit c (hdig c hc)
    rcases hbody with ⟨rfl, rfl⟩ | ⟨rfl, rfl⟩ | ⟨rfl, rfl⟩
    · rw [trimWhiteSpace_around before _ after hb ha hws,
        strNumericLiteral_digits _ hne hdig, roundToDouble_of_le _ hz]
    · rw [trimWhiteSpace_around before _ after hb ha]
      · have : strNumericLiteral ('+' :: ds) = unsignedNumber 1 ds := rfl
        rw [this, unsignedNumber_digits _ _ hne hdig, one_mul, roundToDouble_of_le _ hz]
      · intro c hc
        rcases List.mem_cons.mp hc with hc | hc
        · rw [hc]; decide
        · exact hws c hc
    · rw [trimWhiteSpace_around before _ after hb ha]
      · have : strNumericLiteral ('-' :: ds) = unsignedNumber (-1) ds := rfl
        rw [this, unsignedNumber_digits _ _ hne hdig, neg_one_mul, roundToDouble_of_le _ hz]
      · intro c hc
        rcases List.mem_cons.mp hc with hc | hc
        · rw [hc]; decide
        · exact hws c hc

theorem map_jsNumber_of_reads (persons : List Person) (zs : List Int)
    (hread : List.Forall₂ (fun p z => ReadsAsInteger p.id z) persons zs)
    (hb : ∀ z ∈ zs, z.natAbs < 2 ^ 53) :
    persons.map (fun p => jsNumber p.id) = zs.map JSNumber.fin := by
  induction hread with
  | nil => rfl
  | cons h _ ih =>
    rw [List.map_cons, List.map_cons, ih (fun z hz => hb z (List.mem_cons_of_mem _ hz)),
      jsNumber_of_readsAsInteger _ _ h (by
        have := hb _ (List.mem_cons_self _ _)
        omega)]

/-- Claim C7, as the code has it: for a collection whose identifiers read as integers of
magnitude below `2 ^ 53` (decimal digits, leading zeros allowed, with an optional sign and
possibly with white space around; a blank identifier reads as `0`), the identifier that
`addPerson` places in the create request is the decimal string of one plus the largest of
`0` and these integers.  For the empty collection it is `"1"`. -/
theorem create_request_identifier (confirm : String → Bool) (s : State) (zs : List Int)
    (hread : List.Forall₂ (fun p z => ReadsAsInteger p.id z) s.persons zs)
    (hb : ∀ z ∈ zs, z.natAbs < 2 ^ 53) :
    newId s.persons = toString (zs.foldr max 0 + 1) ∧
    (∀ req ∈ (addPerson confirm s).2, ∀ (persons : List Person) (object : Person),
      req = Pending.create persons object → object.id = toString (zs.foldr max 0 + 1)) ∧
    ((∀ q ∈ s.persons, q.name ≠ s.newName) →
      (addPerson confirm s).2 =
        [Pending.create s.persons ⟨toString (zs.foldr max 0 + 1), s.newName, s.newNumber⟩]) ∧
    (s.persons = [] →
      (addPerson confirm s).2 = [Pending.create [] ⟨"1", s.newName, s.newNumber⟩]) := by
  have hbound := foldr_max_bound zs (2 ^ 53 - 1) (by norm_num) (fun z hz => by
    have := hb z hz
    omega)
  have hnew : newId s.persons = toString (zs.foldr max 0 + 1) := by
    unfold newId
    rw [map_jsNumber_of_reads s.persons zs hread hb, mathMax_fin]
    show toString (roundToDouble (zs.foldr max 0 + 1)) = _
    rw [roundToDouble_of_le _ (by omega)]
  have hcreate : (∀ q ∈ s.persons, q.name ≠ s.newName) →
      (addPerson confirm s).2 =
        [Pending.create s.persons ⟨toString (zs.foldr max 0 + 1), s.newName, s.newNumber⟩] := by
    intro hno
    have hn : existingPerson s = none := (existingPerson_eq_none_iff s).mpr hno
    simp [addPerson, hn, personObject, hnew]
  refine ⟨hnew, ?_, hcreate, ?_⟩
  · intro req hreq persons object hreqeq
    subst hreqeq
    unfold addPerson at hreq
    cases hp : existingPerson s with
    | none =>
      rw [hp] at hreq
      simp only [List.mem_singleton, Pending.create.injEq] at hreq
      rw [hreq.2]
      simp [personObject, hnew]
    | some p =>
      rw [hp] at hreq
      by_cases hc : confirm (overwritePrompt s.newName) = true <;> simp [hc] at hreq
  · intro hnil
    have hno : ∀ q ∈ s.persons, q.name ≠ s.newName := by
      intro q hq
      rw [hnil] at hq
      exact absurd hq (List.not_mem_nil _)
    rw [hcreate hno]
    rw [hnil] at hread
    cases hread
    rw [hnil]
    rfl

/-- The scenario of C7 on the identifiers `007`, ` +3 ` and `-5`: the create request for
`Dee` carries the identifier `8`. -/
theorem create_request_identifier_witness :
    (addPerson (fun _ => true) mixedIdBook).2 =
      [Pending.create mixedIdBook.persons ⟨"8", "Dee", "5"⟩] :=
  ((create_request_identifier (fun _ => true) mixedIdBook [7, 3, -5]
    (List.Forall₂.cons
      ⟨[], ['0', '0', '7'], [], rfl, by simp, by simp,
        Or.inr ⟨['0', '0', '7'], by simp, by decide, Or.inl ⟨rfl, by decide⟩⟩⟩
      (List.Forall₂.cons
        ⟨[' '], ['+', '3'], [' '], rfl, by decide, by decide,
          Or.inr ⟨['3'], by simp, by decide, Or.inr (Or.inl ⟨rfl, by decide⟩)⟩⟩
        (List.Forall₂.cons
          ⟨[], ['-', '5'], [], rfl, by simp, by simp,
            Or.inr ⟨['5'], by simp, by decide, Or.inr (Or.inr ⟨rfl, by decide⟩)⟩⟩
          List.Forall₂.nil)))
    (by decide)).2.2.1 (by decide)).trans (by decide)

/-- Claim C7 fails as stated.  With the single identifier `-5` the identifiers read as
numbers have maximum `-5`, one plus it is `-4`, and the code produces `"1"`, which is the
identifier the create request carries; with the single identifier `9007199254740992` one
plus the maximum is `9007199254740993`, and the code produces `"9007199254740992"`, which
is the identifier the create request carries. -/
theorem newId_counterexample :
    (jsNumber "-5" = JSNumber.fin (-5) ∧ newId [⟨"-5", "Ada", "1"⟩] = "1" ∧
      newId [⟨"-5", "Ada", "1"⟩] ≠ toString ((-5 : Int) + 1) ∧
      (addPerson (fun _ => true) negativeIdState).2 =
        [Pending.create negativeIdState.persons ⟨"1", "Bo", "9"⟩]) ∧
    (jsNumber "9007199254740992" = JSNumber.fin 9007199254740992 ∧
      newId [⟨"9007199254740992", "Ada", "1"⟩] = "9007199254740992" ∧
      newId [⟨"9007199254740992", "Ada", "1"⟩] ≠ toString ((9007199254740992 : Int) + 1) ∧
      (addPerson (fun _ => true) largeIdState).2 =
        [Pending.create largeIdState.persons ⟨"9007199254740992", "Bo", "9"⟩]) := by
  refine ⟨⟨?_, ?_, ?_, ?_⟩, ?_, ?_, ?_, ?_⟩ <;> decide

/-! ## Name uniqueness -/

theorem namesUnique_filter (persons : List Person) (f : Person → Bool)
    (h : NamesUnique persons) : NamesUnique (persons.filter f) := by
  unfold NamesUnique at h ⊢
  exact List.Nodup.sublist (List.Sublist.map _ (List.filter_sublist _)) h

theorem namesUnique_append_singleton (persons : List Person) (r : Person)
    (h : NamesUnique persons) (hr : ∀ q ∈ persons, q.name ≠ r.name) :
    NamesUnique (persons ++ [r]) := by
  unfold NamesUnique at h ⊢
  rw [List.map_append, List.nodup_append]
  refine ⟨h, by simp, ?_⟩
  intro a ha hb
  simp only [List.map_cons, List.map_nil, List.mem_singleton] at hb
  obtain ⟨q, hq, hqa⟩ := List.mem_map.mp ha
  exact hr q hq (hqa.trans hb)

/-- Claim C10: name uniqueness is an invariant of the phonebook state.  When no two
contacts share a display name, then, under the conditions the specification sets for the
collection and the server (identifiers are unique within the collection, and a fulfilled
request returns the record echoed back, so with the submitted name), after one `addPerson`
submission and any outcome of it (create fulfilled or rejected, update fulfilled or
rejected, confirmation declined) no two contacts share a display name; after a delete and
any outcome of it the same holds. -/
theorem namesUnique_preserved (confirm : String → Bool) (o : Outcome) (now : Nat)
    (s : State) (id name : String) (hu : NamesUnique s.persons) :
    (IdsUnique s.persons → (∀ r, o = Outcome.fulfilled r → r.name = s.newName) →
      NamesUnique (afterSubmission confirm o now s).persons) ∧
    NamesUnique (afterDelete id name confirm o now s).persons := by
  constructor
  · intro hid hecho
    unfold afterSubmission
    cases hp : existingPerson s with
    | none =>
      have hno := (existingPerson_eq_none_iff s).mp hp
      cases o with
      | fulfilled r =>
        have hr : r.name = s.newName := hecho r rfl
        simp only [addPerson, hp, List.foldl_cons, List.foldl_nil, settle, showNotification]
        exact namesUnique_append_singleton _ _ hu (fun q hq => by rw [hr]; exact hno q hq)
      | rejected =>
        simp only [addPerson, hp, List.foldl_cons, List.foldl_nil, settle, showNotification]
        exact hu
    | some p =>
      obtain ⟨hname, pre, post, hsplit, _⟩ := (existingPerson_eq_some_iff s p).mp hp
      by_cases hc : confirm (overwritePrompt s.newName) = true
      · cases o with
        | fulfilled r =>
          have hr : r.name = s.newName := hecho r rfl
          simp only [addPerson, hp, hc, if_true, List.foldl_cons, List.foldl_nil, settle,
            showNotification]
          rw [map_replace]
          unfold IdsUnique at hid
          rw [hsplit] at hid hu ⊢
          rw [map_replaceById_of_nodup pre post p r hid]
          unfold NamesUnique at hu ⊢
          simpa [hr, hname] using hu
        | rejected =>
          simp only [addPerson, hp, hc, if_true, List.foldl_cons, List.foldl_nil, settle,
            showNotification]
          exact namesUnique_filter _ _ hu
      · simp only [addPerson, hp, hc, List.foldl_nil]
        exact hu
  · unfold afterDelete handleDelete
    split
    · cases o with
      | fulfilled r =>
        simp only [List.foldl_cons, List.foldl_nil, settle]
        exact namesUnique_filter _ _ hu
      | rejected =>
        simp only [List.foldl_cons, List.foldl_nil, settle]
        exact hu
    · simpa using hu

/-- The scenario of C10: updating `Ada` in `[Ada, Bo]` with the echoed record keeps the
names distinct. -/
theorem namesUnique_preserved_witness :
    NamesUnique (afterSubmission (fun _ => true) (Outcome.fulfilled ⟨"1", "Ada", "2"⟩) 0
      adaBoBook).persons :=
  (namesUnique_preserved (fun _ => true) (Outcome.fulfilled ⟨"1", "Ada", "2"⟩) 0 adaBoBook
    "1" "Ada" (by unfold NamesUnique; decide)).1 (by unfold IdsUnique; decide)
    (fun r hr => by cases hr; rfl)

/-! ## Notification timeouts -/

theorem foldl_timeoutCallback_message (l : List Nat) (s : State) :
    (l.foldl (fun st _ => timeoutCallback st) s).notificationMessage =
      if l = [] then s.notificationMessage else none := by
  induction l generalizing s with
  | nil => rfl
  | cons a l ih =>
    rw [List.foldl_cons, ih]
    by_cases h : l = [] <;> simp [h, timeoutCallback]

theorem runTimers_message (t : Nat) (s : State) :
    (runTimers t s).notificationMessage =
      if ∃ due ∈ s.timers, due ≤ t then none else s.notificationMessage := by
  simp only [runTimers, foldl_timeoutCallback_message]
  by_cases h : ∃ due ∈ s.timers, due ≤ t
  · obtain ⟨due, hmem, hle⟩ := h
    have hne : s.timers.filter (fun due => decide (due ≤ t)) ≠ [] := by
      intro he
      have : due ∈ s.timers.filter (fun due => decide (due ≤ t)) :=
        List.mem_filter.mpr ⟨hmem, by simpa using hle⟩
      rw [he] at this
      exact List.not_mem_nil _ this
    rw [if_neg hne, if_pos ⟨due, hmem, hle⟩]
  · have he : s.timers.filter (fun due => decide (due ≤ t)) = [] := by
      rw [List.filter_eq_nil_iff]
      intro due hmem hd
      exact h ⟨due, hmem, by simpa using hd⟩
    rw [if_pos he, if_neg h]

theorem runTimers_timers (t : Nat) (s : State) :
    (runTimers t s).timers = s.timers.filter (fun due => decide (t < due)) := rfl

/-- What holds of one call when no earlier timeout is pending: the message and the type
are set at once, the message stays until 5000 ms have elapsed, and it is `null` from then
on. -/
theorem showNotification_alone (s : State) (now : Nat) (message type : String)
    (hnone : s.timers = []) :
    (showNotification now message type s).notificationMessage = some message ∧
    (showNotification now message type s).notificationType = type ∧
    (∀ t, t < now + 5000 →
      (runTimers t (showNotification now message type s)).notificationMessage =
        some message) ∧
    (∀ t, now + 5000 ≤ t →
      (runTimers t (showNotification now message type s)).notificationMessage = none) := by
  refine ⟨rfl, rfl, ?_, ?_⟩
  · intro t ht
    rw [runTimers_message, if_neg]
    · rfl
    · simp only [showNotification, hnone, notificationDelay, List.nil_append,
        List.mem_singleton]
      rintro ⟨due, rfl, hle⟩
      omega
  · intro t ht
    rw [runTimers_message, if_pos]
    exact ⟨now + 5000, by simp [showNotification, notificationDelay], ht⟩

/-- Claim C11 fails on the code.  For two calls of `showNotification` at `t1 < t2 <
t1 + 5000`, the second message is displayed at `t2`, but at every time from `t1 + 5000`
on the message is `null`: the timeout of the first call is not cancelled and clears the
second message before `t2 + 5000`. -/
theorem second_notification_cleared_early (s : State) (t1 t2 t : Nat)
    (m1 ty1 m2 ty2 : String) (_h12 : t1 < t2) (h21 : t2 < t1 + 5000)
    (ht : t1 + 5000 ≤ t) :
    (twoNotifications s t1 m1 ty1 t2 m2 ty2 t2).notificationMessage = some m2 ∧
    (twoNotifications s t1 m1 ty1 t2 m2 ty2 t).notificationMessage = none := by
  unfold twoNotifications
  constructor
  · rw [runTimers_message, if_neg]
    · rfl
    · simp only [showNotification, runTimers_timers, List.mem_append, List.mem_filter,
        List.mem_singleton, decide_eq_true_eq, notificationDelay]
      rintro ⟨due, (⟨_, hlt⟩ | rfl), hle⟩ <;> omega
  · rw [runTimers_message, if_pos]
    refine ⟨t1 + 5000, ?_, ht⟩
    simp only [showNotification, runTimers_timers, List.mem_append, List.mem_filter,
      List.mem_singleton, decide_eq_true_eq, notificationDelay]
    left
    exact ⟨Or.inr trivial, h21⟩

/-- The failing scenario of C11: `A` is shown at 0 ms and `B` at 1000 ms; at 5000 ms
nothing is shown, although `B` is only 4000 ms old. -/
theorem second_notification_cleared_early_witness :
    (twoNotifications State.initial 0 "A" "success" 1000 "B" "success"
      1000).notificationMessage = some "B" ∧
    (twoNotifications State.initial 0 "A" "success" 1000 "B" "success"
      5000).notificationMessage = none :=
  second_notification_cleared_early State.initial 0 1000 5000 "A" "success" "B" "success"
    (by decide) (by decide) (by decide)

/-- Claim C12 fails on the code.  The call `showNotification('B', 'error')` at 1000 ms is
followed by no other notification; it sets the message and the type at once, the default
type is `'success'`, and the message is still `B` at 4999 ms; but at 5000 ms, when only
4000 ms have elapsed, the message is `null`, cleared by the timeout of a call made at
0 ms; its own timeout, due at 6000 ms, is still pending then. -/
theorem notification_cleared_by_earlier_timeout :
    (showNotification 1000 "B" "error"
      (runTimers 1000 (showNotification 0 "A" defaultType State.initial))).notificationMessage
        = some "B" ∧
    (showNotification 1000 "B" "error"
      (runTimers 1000 (showNotification 0 "A" defaultType State.initial))).notificationType
        = "error" ∧
    typeOrDefault none = "success" ∧
    (runTimers 4999 (showNotification 1000 "B" "error"
      (runTimers 1000 (showNotification 0 "A" defaultType State.initial)))).notificationMessage
        = some "B" ∧
    (runTimers 5000 (showNotification 1000 "B" "error"
      (runTimers 1000 (showNotification 0 "A" defaultType State.initial)))).notificationMessage
        = none ∧
    (runTimers 5000 (showNotification 1000 "B" "error"
      (runTimers 1000 (showNotification 0 "A" defaultType State.initial)))).timers
        = [6000] := by
  refine ⟨?_, ?_, ?_, ?_, ?_, ?_⟩ <;> decide

/-! ## The search filter -/

theorem includesChars_iff_infix (text search : List Char) :
    includesChars text search = true ↔ search <:+: text := by
  induction text with
  | nil => simp [includesChars, List.infix_nil]
  | cons c cs ih =>
    rw [includesChars, Bool.or_eq_true, ih, List.infix_cons_iff, List.isPrefixOf_iff_prefix]

theorem toLower_toUpper (c : Char) : c.toUpper.toLower = c.toLower := by
  by_cases h : c.toNat ≥ 97 ∧ c.toNat ≤ 122
  · have hc : c = Char.ofNat c.toNat := (Char.ofNat_toNat c).symm
    obtain ⟨h1, h2⟩ := h
    generalize c.toNat = n at hc h1 h2
    subst hc
    interval_cases n <;> rfl
  · have : c.toUpper = c := by
      unfold Char.toUpper
      simp only [h, if_false]
    rw [this]

theorem asciiToLowerCase_upper (s : String) :
    asciiToLowerCase (String.mk (s.toList.map Char.toUpper)) = asciiToLowerCase s := by
  unfold asciiToLowerCase
  congr 1
  show List.map Char.toLower (List.map Char.toUpper s.toList) = _
  rw [List.map_map]
  apply List.map_congr_left
  intro c _
  exact toLower_toUpper c

/-- Claim C13: `filteredPersons` is the collection filtered, in its order, by the
condition that the lower-cased search term occurs as a contiguous run of characters in
the lower-cased name: it is a sublist of the collection and holds exactly the contacts
that meet the condition.  The empty search term displays the whole collection.  The match
depends on the name and on the term through their lower-cased forms only, so that two
terms, or two names, that differ in case only match alike; on ASCII strings, putting the
term or a name in upper case does not change what is displayed. -/
theorem filteredPersons_spec (toLowerCase : String → String) (s : State) :
    filteredPersons toLowerCase s =
      s.persons.filter (fun p =>
        decide ((toLowerCase s.searchTerm).toList <:+: (toLowerCase p.name).toList)) ∧
    (filteredPersons toLowerCase s).Sublist s.persons ∧
    (∀ p, p ∈ filteredPersons toLowerCase s ↔
      p ∈ s.persons ∧ (toLowerCase s.searchTerm).toList <:+: (toLowerCase p.name).toList) ∧
    (toLowerCase "" = "" → s.searchTerm = "" → filteredPersons toLowerCase s = s.persons) ∧
    (∀ term, toLowerCase term = toLowerCase s.searchTerm →
      filteredPersons toLowerCase { s with searchTerm := term } =
        filteredPersons toLowerCase s) ∧
    (∀ p q : Person, toLowerCase p.name = toLowerCase q.name →
      (filteredPersons toLowerCase { s with persons := [p] } = [p] ↔
        filteredPersons toLowerCase { s with persons := [q] } = [q])) ∧
    filteredPersons asciiToLowerCase
        { s with searchTerm := String.mk (s.searchTerm.toList.map Char.toUpper) } =
      filteredPersons asciiToLowerCase s ∧
    (∀ p : Person,
      (filteredPersons asciiToLowerCase
          { s with persons := [{ p with name := String.mk (p.name.toList.map Char.toUpper) }] }
        = [] ↔
      filteredPersons asciiToLowerCase { s with persons := [p] } = [])) := by
  have hfilter : filteredPersons toLowerCase s =
      s.persons.filter (fun p =>
        decide ((toLowerCase s.searchTerm).toList <:+: (toLowerCase p.name).toList)) := by
    unfold filteredPersons includes
    congr 1
    funext p
    rw [Bool.eq_iff_iff, includesChars_iff_infix, decide_eq_true_eq]
  refine ⟨hfilter, ?_, ?_, ?_, ?_, ?_, ?_, ?_⟩
  · rw [hfilter]
    exact List.filter_sublist _
  · intro p
    rw [hfilter, List.mem_filter, decide_eq_true_eq]
  · intro hempty hterm
    rw [hfilter, hterm, hempty]
    simp
  · intro term hterm
    simp only [filteredPersons, hterm]
  · intro p q hpq
    simp only [filteredPersons, List.filter_cons, List.filter_nil, hpq]
    split <;> simp
  · simp only [filteredPersons, asciiToLowerCase_upper]
  · intro p
    simp only [filteredPersons, List.filter_cons, List.filter_nil, asciiToLowerCase_upper]
    split <;> simp

/-- The scenario of C13 from the comment above `filteredPersons`: with the contacts `John
Smith` and `Jane Doe`, the search term `JO` displays `John Smith` only. -/
theorem filteredPersons_spec_witness :
    filteredPersons asciiToLowerCase searchBook = [⟨"1", "John Smith", "1"⟩] :=
  (filteredPersons_spec asciiToLowerCase searchBook).1.trans (by decide)

/-! ## Notification texts -/

/-- Claim C14: the notification of a settled request is determined by the outcome and a
name.  A fulfilled update emits `Updated <name of r>'s number` and a fulfilled create emits
`Added <name of r>`, for the returned record `r`, both with type `success`; a rejected
update emits `Information of <name> has already been removed from server` with type
`error`, where the name is that of the contact the request was sent for, which for a
request sent by `addPerson` is the matched contact. -/
theorem notification_texts (persons : List Person) (existing changed object r : Person)
    (now : Nat) (s1 : State) :
    NotifiedOnce now ("Updated " ++ r.name ++ "'s number") "success" s1
      (settle now (Pending.update persons existing changed) (Outcome.fulfilled r) s1) ∧
    NotifiedOnce now ("Added " ++ r.name) "success" s1
      (settle now (Pending.create persons object) (Outcome.fulfilled r) s1) ∧
    NotifiedOnce now
      ("Information of " ++ existing.name ++ " has already been removed from server") "error"
      s1 (settle now (Pending.update persons existing changed) Outcome.rejected s1) ∧
    (∀ (confirm : String → Bool) (s : State) (p : Person), existingPerson s = some p →
      ∀ req ∈ (addPerson confirm s).2,
        NotifiedOnce now
          ("Information of " ++ p.name ++ " has already been removed from server") "error"
          s1 (settle now req Outcome.rejected s1)) := by
  refine ⟨?_, ?_, ?_, ?_⟩
  · simp [NotifiedOnce, settle, showNotification, notificationDelay, defaultType]
  · simp [NotifiedOnce, settle, showNotification, notificationDelay, defaultType]
  · simp [NotifiedOnce, settle, showNotification, notificationDelay]
  · intro confirm s p hp req hreq
    unfold addPerson at hreq
    rw [hp] at hreq
    by_cases hc : confirm (overwritePrompt s.newName) = true
    · simp only [hc, if_true, List.mem_singleton] at hreq
      subst hreq
      simp [NotifiedOnce, settle, showNotification, notificationDelay]
    · simp [hc] at hreq

/-- The scenario of C14: the update of `Ada` fulfilled with `Ada 2` shows `Updated Ada's
number`. -/
theorem notification_texts_witness :
    (settle 0 (Pending.update adaBook.persons ⟨"1", "Ada", "1"⟩ ⟨"1", "Ada", "2"⟩)
      (Outcome.fulfilled ⟨"1", "Ada", "2"⟩)
      (addPerson (fun _ => true) adaBook).1).notificationMessage =
      some "Updated Ada's number" :=
  (notification_texts adaBook.persons ⟨"1", "Ada", "1"⟩ ⟨"1", "Ada", "2"⟩ ⟨"", "", ""⟩
    ⟨"1", "Ada", "2"⟩ 0 (addPerson (fun _ => true) adaBook).1).1.1.trans (by decide)

/-! ## An update and a delete in flight together -/

/-- Claim C15: there is an ordering in which the removal done by a delete is undone.  When
`p` is the first contact named `newName`, an update of `p` is submitted and confirmed, then
a delete of the identifier of `p` is confirmed and fulfilled, and then the update is
fulfilled with `r`: after the delete no contact has the identifier of `p`, and after the
update the collection is the one captured at submission with the entries of that
identifier replaced by `r`; with `r` carrying the identifier of `p`, a contact with that
identifier is in the collection again. -/
theorem delete_undone_by_update (s : State) (pre post : List Person) (p r : Person)
    (name : String) (now : Nat)
    (hsplit : s.persons = pre ++ p :: post) (hpre : ∀ q ∈ pre, q.name ≠ s.newName)
    (hname : p.name = s.newName) (hid : r.id = p.id) :
    (∀ q ∈ (updateDeleteRace s p.id name r now).1.persons, q.id ≠ p.id) ∧
    (updateDeleteRace s p.id name r now).2.persons = s.persons.map (replaceById p.id r) ∧
    ∃ q ∈ (updateDeleteRace s p.id name r now).2.persons, q.id = p.id := by
  have hp : existingPerson s = some p :=
    (existingPerson_eq_some_iff s p).mpr ⟨hname, pre, post, hsplit, hpre⟩
  have h1 : (updateDeleteRace s p.id name r now).1.persons =
      s.persons.filter (fun q => decide (q.id ≠ p.id)) := by
    simp only [updateDeleteRace, addPerson, hp, handleDelete, if_true, List.foldl_cons,
      List.foldl_nil, settle]
    exact filter_id_ne s.persons p.id
  have h2 : (updateDeleteRace s p.id name r now).2.persons =
      s.persons.map (replaceById p.id r) := by
    simp only [updateDeleteRace, addPerson, hp, handleDelete, if_true, List.foldl_cons,
      List.foldl_nil, settle, showNotification]
    exact map_replace s.persons p.id r
  refine ⟨?_, h2, r, ?_, hid⟩
  · intro q hq
    rw [h1] at hq
    simpa using (List.mem_filter.mp hq).2
  · rw [h2, hsplit]
    simp [replaceById]

/-- The scenario of C15 on `[Ada]`: after the delete the phonebook is empty, after the
answer to the update it holds `Ada` again. -/
theorem delete_undone_by_update_witness :
    (updateDeleteRace adaBook "1" "Ada" ⟨"1", "Ada", "2"⟩ 0).1.persons = [] ∧
    (updateDeleteRace adaBook "1" "Ada" ⟨"1", "Ada", "2"⟩ 0).2.persons =
      [⟨"1", "Ada", "2"⟩] :=
  ⟨by decide,
    (delete_undone_by_update adaBook [] [] ⟨"1", "Ada", "1"⟩ ⟨"1", "Ada", "2"⟩ "Ada" 0 rfl
      (by simp) rfl rfl).2.1.trans (by decide)⟩

/-! ## The component `Notification` -/

/-- Claim C19: `Notification` renders nothing when the message is `null`; otherwise it
renders the message text, in red exactly when the type is `error` and in green for every
other type. -/
theorem Notification_spec (type : String) :
    Notification none type = none ∧
    ∀ text : String, ∃ v, Notification (some text) type = some v ∧ v.text = text ∧
      (v.style.color = "red" ↔ type = "error") ∧
      (type ≠ "error" → v.style.color = "green") := by
  refine ⟨rfl, fun text => ⟨_, rfl, rfl, ?_, ?_⟩⟩
  · by_cases h : type = "error"
    · simp [h]
    · simp only [h, if_false, iff_false]
      decide
  · intro h
    simp [h]

/-! ## Freshness of the generated identifier -/

theorem jsNumber_of_isDecimal (s : String) (n : Nat) (h : IsDecimal s n) (hn : n < 2 ^ 53) :
    jsNumber s = JSNumber.fin n := by
  obtain ⟨hne, hdig, hval⟩ := h
  unfold jsNumber
  rw [trimWhiteSpace_of_none _ (fun c hc => not_whiteSpace_of_isDigit c (hdig c hc)),
    strNumericLiteral_digits _ hne hdig, hval, roundToDouble_of_le _ (by omega)]

theorem mathMax_bound (persons : List Person) (b : Int) (hb : 0 ≤ b)
    (h : ∀ p ∈ persons, ∃ z : Int, jsNumber p.id = JSNumber.fin z ∧ z ≤ b) :
    ∃ m : Int, mathMax (persons.map (fun p => jsNumber p.id)) (JSNumber.fin 0) =
        JSNumber.fin m ∧ 0 ≤ m ∧ m ≤ b ∧
      ∀ p ∈ persons, ∀ z : Int, jsNumber p.id = JSNumber.fin z → z ≤ m := by
  induction persons with
  | nil => exact ⟨0, rfl, le_refl _, hb, fun p hp => absurd hp (List.not_mem_nil _)⟩
  | cons a l ih =>
    obtain ⟨m, hm, hm0, hmb, hall⟩ := ih (fun p hp => h p (List.mem_cons_of_mem _ hp))
    obtain ⟨z, hz, hzb⟩ := h a (List.mem_cons_self _ _)
    refine ⟨max z m, ?_, le_max_of_le_right hm0, max_le hzb hmb, ?_⟩
    · simp only [mathMax, List.map_cons, List.foldr_cons] at hm ⊢
      rw [hm, hz]
      rfl
    · intro p hp y hy
      rcases List.mem_cons.mp hp with rfl | hp
      · rw [hz] at hy
        cases hy
        exact le_max_left _ _
      · exact le_trans (hall p hp y hy) (le_max_right _ _)

/-- What holds of the generated identifier where the arithmetic is exact: for a
collection whose identifiers are runs of decimal digits that denote numbers below `2 ^ 53`,
it differs from the identifier of every contact of the collection. -/
theorem newId_fresh (persons : List Person)
    (h : ∀ p ∈ persons, ∃ n, IsDecimal p.id n ∧ n < 2 ^ 53) :
    ∀ p ∈ persons, newId persons ≠ p.id := by
  have hnum : ∀ p ∈ persons, ∃ z : Int, jsNumber p.id = JSNumber.fin z ∧ z ≤ 2 ^ 53 - 1 := by
    intro p hp
    obtain ⟨n, hdec, hn⟩ := h p hp
    exact ⟨n, jsNumber_of_isDecimal p.id n hdec hn, by omega⟩
  obtain ⟨m, hm, hm0, hmb, hall⟩ := mathMax_bound persons (2 ^ 53 - 1) (by norm_num) hnum
  have hnew : newId persons = toString (m + 1) := by
    unfold newId
    rw [hm]
    show toString (roundToDouble (m + 1)) = _
    rw [roundToDouble_of_le _ (by omega)]
  intro p hp heq
  obtain ⟨z, hz, _⟩ := hnum p hp
  have hle := hall p hp z hz
  rw [← heq, hnew, jsNumber_toString, roundToDouble_of_le _ (by omega)] at hz
  cases hz
  omega

/-- On the identifiers `1`, `007` and `12` the generated identifier differs from `007`. -/
theorem newId_fresh_witness : newId leadingZeroBook ≠ "007" :=
  newId_fresh leadingZeroBook (by
    intro p hp
    simp only [leadingZeroBook, List.mem_cons, List.mem_singleton, List.not_mem_nil,
      or_false] at hp
    rcases hp with rfl | rfl | rfl
    · exact ⟨1, by unfold IsDecimal; decide, by norm_num⟩
    · exact ⟨7, by unfold IsDecimal; decide, by norm_num⟩
    · exact ⟨12, by unfold IsDecimal; decide, by norm_num⟩) ⟨"007", "Bo", "9"⟩ (by decide)

/-- Claim C20 fails on the code.  The identifier `9007199254740992` is a run of decimal
digits that denotes `2 ^ 53`.  For the collection that holds one contact with this
identifier the generated identifier is `9007199254740992` again, since `2 ^ 53 + 1` rounds
to `2 ^ 53`, and the create request that `addPerson` sends for a new name carries it: the
new contact gets the identifier of a contact of the collection. -/
theorem newId_not_fresh :
    IsDecimal "9007199254740992" (2 ^ 53) ∧
    newId largeIdBook = "9007199254740992" ∧
    (∃ p ∈ largeIdBook, newId largeIdBook = p.id) ∧
    (addPerson (fun _ => true) largeIdState).2 =
      [Pending.create largeIdBook ⟨"9007199254740992", "Bo", "9"⟩] := by
  refine ⟨by unfold IsDecimal; decide, by decide, ⟨⟨"9007199254740992", "Ada", "1"⟩, ?_, ?_⟩,
    by decide⟩
  · decide
  · decide

/-! ## The inputs on the update path -/

/-- Claim C21: on a confirmed update `addPerson` itself resets the name and number inputs
to the empty string and sends the one request, before any answer of the server.  The
callbacks of that request, whatever the outcome, leave both inputs as they find them, so
that with nothing in between the inputs are empty after a fulfilled update and after a
rejected one.  On the create path a rejected request leaves the inputs with the values
that were submitted. -/
theorem update_clears_inputs (confirm : String → Bool) (s : State) (o : Outcome)
    (now : Nat) (s1 : State) (hex : ∃ q ∈ s.persons, q.name = s.newName)
    (hc : confirm (overwritePrompt s.newName) = true) :
    (addPerson confirm s).1.newName = "" ∧ (addPerson confirm s).1.newNumber = "" ∧
    (addPerson confirm s).2.length = 1 ∧
    (∀ req ∈ (addPerson confirm s).2,
      (settle now req o s1).newName = s1.newName ∧
      (settle now req o s1).newNumber = s1.newNumber) ∧
    (afterSubmission confirm o now s).newName = "" ∧
    (afterSubmission confirm o now s).newNumber = "" ∧
    (∀ s2 : State, (∀ q ∈ s2.persons, q.name ≠ s2.newName) →
      (afterSubmission confirm Outcome.rejected now s2).newName = s2.newName ∧
      (afterSubmission confirm Outcome.rejected now s2).newNumber = s2.newNumber) := by
  obtain ⟨p, hp⟩ := Option.isSome_iff_exists.mp ((existingPerson_isSome_iff s).mpr hex)
  refine ⟨?_, ?_, ?_, ?_, ?_, ?_, ?_⟩
  · simp [addPerson, hp, hc]
  · simp [addPerson, hp, hc]
  · simp [addPerson, hp, hc]
  · intro req hreq
    simp only [addPerson, hp, hc, if_true, List.mem_singleton] at hreq
    subst hreq
    cases o <;> exact ⟨rfl, rfl⟩
  · cases o <;>
      simp [afterSubmission, addPerson, hp, hc, settle, showNotification]
  · cases o <;>
      simp [afterSubmission, addPerson, hp, hc, settle, showNotification]
  · intro s2 hno
    have hn : existingPerson s2 = none := (existingPerson_eq_none_iff s2).mpr hno
    simp [afterSubmission, addPerson, hn, settle, showNotification]

/-- The scenario of C21: after the confirmed update of `Ada` submitted with `("Ada", "2")`,
the name input is empty whether the request is fulfilled or rejected. -/
theorem update_clears_inputs_witness :
    (afterSubmission (fun _ => true) (Outcome.fulfilled ⟨"1", "Ada", "2"⟩) 0
      adaBook).newName = "" ∧
    (afterSubmission (fun _ => true) Outcome.rejected 0 adaBook).newName = "" :=
  ⟨(update_clears_inputs (fun _ => true) adaBook (Outcome.fulfilled ⟨"1", "Ada", "2"⟩) 0
      adaBook ⟨⟨"1", "Ada", "1"⟩, by decide, rfl⟩ rfl).2.2.2.2.1,
    (update_clears_inputs (fun _ => true) adaBook Outcome.rejected 0
      adaBook ⟨⟨"1", "Ada", "1"⟩, by decide, rfl⟩ rfl).2.2.2.2.1⟩

end Phonebook

namespace Countries

/-! ## The component `CountryDetail` -/

/-- Claim C16 fails on the code.  With the prop `country` equal to `null` or `undefined`,
a render of `CountryDetail` throws a `TypeError` on reading `country.capital` for the
dependency array of `useEffect`; the guard that returns the message `No country data
available.` comes after it and is not reached. -/
theorem CountryDetail_null_throws (weather : Option Weather) :
    CountryDetail none weather = Except.error (JSError.typeError "capital") ∧
    CountryDetail none weather ≠
      Except.ok (DetailView.message "No country data available.") := by
  constructor
  · rfl
  · intro h
    cases h

/-! ## The view of `App` -/

/-- Claim C17: `App` chooses its view by three cases.  With a selected country it renders
`CountryDetail` for the selected country, whatever `countries` holds; with no selection and
exactly one country in `countries` it renders `CountryDetail` for that country; in every
other case, the empty result among them, it renders `CountryList` for `countries`. -/
theorem App_view (selectedCountry : Option Country) (countries : List Country) :
    (∀ c, selectedCountry = some c →
      App selectedCountry countries = AppView.countryDetail (some c)) ∧
    (selectedCountry = none → ∀ c, countries = [c] →
      App selectedCountry countries = AppView.countryDetail (some c)) ∧
    (selectedCountry = none → countries.length ≠ 1 →
      App selectedCountry countries = AppView.countryList countries) ∧
    App none [] = AppView.countryList [] := by
  refine ⟨?_, ?_, ?_, rfl⟩
  · rintro c rfl
    rfl
  · rintro rfl c rfl
    rfl
  · rintro rfl hlen
    simp [App, hlen]

/-- The scenario of C17: a selection wins over a single match. -/
theorem App_view_witness :
    App (some sweden) [finland] = AppView.countryDetail (some sweden) ∧
    App none [finland] = AppView.countryDetail (some finland) ∧
    App none [finland, sweden] = AppView.countryList [finland, sweden] :=
  ⟨(App_view (some sweden) [finland]).1 sweden rfl,
    (App_view none [finland]).2.1 rfl finland rfl,
    (App_view none [finland, sweden]).2.2.1 rfl (by decide)⟩

/-! ## The component `CountryList` -/

/-- Claim C18: `CountryList` renders the message `Too many matches, specify another
filter`, and no item, exactly when the list has more than 10 countries.  For a list of at
most 10 countries it renders no message and one item per country, in the order of the list:
each shows the common name of its country and a `Show` button that calls `onSelect` with
that country. -/
theorem CountryList_spec {α : Type} (countries : List Country) (onSelect : Country → α) :
    (((CountryList countries onSelect).text? =
        some "Too many matches, specify another filter" ∧
      (CountryList countries onSelect).items = []) ↔ 10 < countries.length) ∧
    (countries.length ≤ 10 →
      (CountryList countries onSelect).text? = none ∧
      (CountryList countries onSelect).items.length = countries.length ∧
      (CountryList countries onSelect).items.map (fun item => item.name) =
        countries.map (fun c => c.common) ∧
      (CountryList countries onSelect).items.map (fun item => item.onClick) =
        countries.map onSelect ∧
      ∀ item ∈ (CountryList countries onSelect).items, item.button = "Show") := by
  by_cases h : 10 < countries.length
  · have hgt : countries.length > 10 := h
    refine ⟨?_, fun hle => absurd h (by omega)⟩
    simp [CountryList, hgt, ListView.text?, ListView.items]
  · have hgt : ¬ countries.length > 10 := h
    refine ⟨?_, fun _ => ?_⟩
    · simp [CountryList, hgt, ListView.text?, h]
    · simp [CountryList, hgt, ListView.text?, ListView.items, List.map_map,
        Function.comp_def]

/-- The scenario of C18 at the boundary: ten countries are listed, eleven are not. -/
theorem CountryList_spec_witness :
    (CountryList (List.replicate 10 finland) id).items.map (fun item => item.onClick) =
      List.replicate 10 finland ∧
    (CountryList (List.replicate 11 finland) id).text? =
      some "Too many matches, specify another filter" :=
  ⟨((CountryList_spec (List.replicate 10 finland) id).2 (by decide)).2.2.2.1.trans
      (by decide),
    (((CountryList_spec (List.replicate 11 finland) id).1).mpr (by decide)).1⟩

end Countries
